import Mathlib

/-!
# Verification of the flt terminal embedder against its specification

Shallow embedding of the flt repository (a terminal front-end for the Flutter
Engine) in Lean 4.  Pure functions of the Rust source are translated into Lean
functions; machine integers become `Nat`/`Int`; `f64` values that the claims
reason about exactly (zoom, scale, pixel ratios, coordinates) are modelled as
`ℚ`; fallible operations (FFI results, panicking paths such as `unwrap`,
`todo!` and unsigned-integer underflow) are modelled with `Except`/`Option`.

Sources embedded:
* `src/flt/src/task_runner.rs` (task scheduler),
* `src/flutter-sys/src/task.rs` (`EngineTask::run` / `can_run_now`),
* `src/flutter-sys/src/semantics.rs` (`FlutterTransformation`),
* `src/flt/src/semantics.rs` (semantics tree traversal),
* `src/flt/src/terminal_window.rs` (half-block renderer diff, `size`,
  `normalize_event_height`, `mark_dirty`),
* `src/flt/src/terminal_event.rs` (input translator / viewport state machine),
* `src/flt/src/event.rs` (window-metrics computation in the Draw branch),
* `src/flt/src/embedder.rs` (`reset_viewport`),
* `src/flt/src/constants.rs` (constants).
-/

namespace Flt

/-! ## Task scheduler

From `src/flutter-sys/src/error.rs`: the Engine's native calls return a small
fixed set of result codes. -/

inductive EngineError where
  | invalidLibraryVersion
  | invalidArguments
  | internalConsistency
deriving DecidableEq, Repr

deriving instance DecidableEq for Except

/-- From `src/flutter-sys/src/task.rs`: an `EngineTask` holds a fire time
(`target_time_nanos : u64`) and an opaque `sys::FlutterTask` payload.
`EngineTask::run` hands the payload to the external engine through
`FlutterEngineRunTask`, whose result code is outside this repository; the
outcome of that FFI call is therefore modelled as per-task data
(`runResult`). -/
structure EngineTask where
  targetTimeNanos : Nat
  runResult : Except EngineError Unit
deriving DecidableEq, Repr

/-- `EngineTask::can_run_now` (src/flutter-sys/src/task.rs lines 21-24):
`self.target_time_nanos < current_time_nanos`, where the current time is read
from the external `FlutterEngineGetCurrentTime`, modelled as the parameter
`currentTimeNanos`.  Note the comparison in the source is strict `<`. -/
def canRunNow (currentTimeNanos : Nat) (t : EngineTask) : Bool :=
  t.targetTimeNanos < currentTimeNanos

/-- Outcome of one `TaskRunner::run_expired_tasks` call: the returned
`Result`, the tasks whose `run` was invoked (in invocation order), and the
contents of `self.tasks` after the call. -/
structure RunOutcome where
  result : Except EngineError Unit
  ran : List EngineTask
  tasks : List EngineTask
deriving DecidableEq, Repr

/-- Loop body of `TaskRunner::run_expired_tasks`
(src/flt/src/task_runner.rs lines 16-33):

```rust
let mut not_run_tasks = vec![];
for task in self.tasks.drain(..) {
    if task.can_run_now() {
        task.run(engine)?;
    } else {
        not_run_tasks.push(task);
    }
}
for task in not_run_tasks {
    self.tasks.push(task);
}
Ok(())
```

The `?` operator returns out of the function from *inside* the `drain(..)`
loop.  Dropping a `std::vec::Drain` mid-iteration drops every element that was
not yet yielded and leaves the vector empty, and the local `not_run_tasks` is
dropped as well — so on the error path `self.tasks` ends up empty.  That is
the `⟨.error e, ran ++ [t], []⟩` branch below. -/
def runExpiredTasksGo (now : Nat) :
    List EngineTask → List EngineTask → List EngineTask → RunOutcome
  | [], ran, notRun => ⟨.ok (), ran, notRun⟩
  | t :: rest, ran, notRun =>
    if canRunNow now t then
      match t.runResult with
      | .error e => ⟨.error e, ran ++ [t], []⟩
      | .ok () => runExpiredTasksGo now rest (ran ++ [t]) notRun
    else
      runExpiredTasksGo now rest ran (notRun ++ [t])

/-- `TaskRunner::run_expired_tasks` on a queue `tasks`, at engine clock
`now`. -/
def runExpiredTasks (now : Nat) (tasks : List EngineTask) : RunOutcome :=
  runExpiredTasksGo now tasks [] []

/-- `TaskRunner::post_task` (src/flt/src/task_runner.rs lines 12-14). -/
def postTask (task : EngineTask) (tasks : List EngineTask) : List EngineTask :=
  tasks ++ [task]

/-! ## Transformations (src/flutter-sys/src/semantics.rs lines 156-184)

`f64` components are modelled as `ℚ`; the claims about `merge_with` are exact
algebraic identities. -/

structure FlutterTransformation where
  scaleX : ℚ
  skewX : ℚ
  transX : ℚ
  skewY : ℚ
  scaleY : ℚ
  transY : ℚ
  pers0 : ℚ
  pers1 : ℚ
  pers2 : ℚ
deriving DecidableEq, Repr

/-- `FlutterTransformation::empty()`: scale 1, translation 0, skew 0,
perspective terms (0, 0, 1). -/
def FlutterTransformation.empty : FlutterTransformation where
  scaleX := 1
  scaleY := 1
  transX := 0
  transY := 0
  skewX := 0
  skewY := 0
  pers0 := 0
  pers1 := 0
  pers2 := 1

/-- `FlutterTransformation::merge_with(&self, other)`: scales, skews and
perspective terms multiply component-wise; translations add. -/
def FlutterTransformation.mergeWith (self other : FlutterTransformation) :
    FlutterTransformation where
  scaleX := self.scaleX * other.scaleX
  scaleY := self.scaleY * other.scaleY
  transX := self.transX + other.transX
  transY := self.transY + other.transY
  skewX := self.skewX * other.skewX
  skewY := self.skewY * other.skewY
  pers0 := self.pers0 * other.pers0
  pers1 := self.pers1 * other.pers1
  pers2 := self.pers2 * other.pers2

/-- A transform with a non-zero skew term, used to refute the claim that
merging with the identity is the identity operation. -/
def skewedTransformation : FlutterTransformation where
  scaleX := 2
  scaleY := 2
  transX := 3
  transY := 4
  skewX := 1
  skewY := 0
  pers0 := 0
  pers1 := 0
  pers2 := 1

/-! ## Constants (src/flt/src/constants.rs) and numeric helpers -/

/-- `ZOOM_FACTOR: f64 = 1.1`. -/
def zoomFactor : ℚ := 11 / 10

/-- `SCROLL_DELTA: f64 = 10.0`. -/
def scrollDelta : ℚ := 10

/-- `DEFAULT_PIXEL_RATIO: f64 = 0.3`. -/
def defaultPixelRatio : ℚ := 3 / 10

/-- `LOGGING_WINDOW_HEIGHT: usize = 4`
(src/flt/src/terminal_window.rs line 23). -/
def loggingWindowHeight : Nat := 4

/-- `f64::round`: round half away from zero. -/
def roundF (q : ℚ) : Int := if 0 ≤ q then ⌊q + 1 / 2⌋ else ⌈q - 1 / 2⌉

/-- Rust `as u16` cast from a float value (saturating). -/
def toU16 (i : Int) : Nat := (max 0 (min i 65535)).toNat

/-- `TerminalWindow::size` (src/flt/src/terminal_window.rs lines 143-154):
reads the terminal's cell size (`terminal::size()`, passed in here as
`termCols`/`termRows`), subtracts the logging-window height from the row
count — an *unguarded* `usize` subtraction, modelled as `none` when it would
underflow — and scales by the pixels-per-cell ratios. -/
def terminalPixelSize (termCols termRows : Nat) (pixelsPerCol pixelsPerRow : ℚ) :
    Option (Nat × Nat) :=
  if termRows < loggingWindowHeight then none
  else
    let height := termRows - loggingWindowHeight
    some ((roundF ((termCols : ℚ) * pixelsPerCol)).toNat,
      (roundF ((height : ℚ) * pixelsPerRow)).toNat)

/-! ## Pixels and terminal cells (src/flutter-sys/src/pixel.rs,
src/flt/src/terminal_window.rs) -/

/-- RGBA pixel; `u8` channels modelled as `Nat`. -/
structure Pixel where
  r : Nat
  g : Nat
  b : Nat
  a : Nat
deriving DecidableEq, Repr

/-- `Pixel::zero()`. -/
def Pixel.zero : Pixel := ⟨0, 0, 0, 0⟩

/-- `crossterm::style::Color::Rgb`. -/
structure Color where
  r : Nat
  g : Nat
  b : Nat
deriving DecidableEq, Repr

/-- `to_color` (src/flt/src/terminal_window.rs lines 512-518): keeps r, g, b
and drops the alpha channel. -/
def toColor (p : Pixel) : Color := ⟨p.r, p.g, p.b⟩

/-- `TerminalCell` (src/flt/src/terminal_window.rs lines 485-490).  Its
derived `PartialEq` compares all three fields, including the overlay
`semantics` label. -/
structure TerminalCell where
  top : Color
  bottom : Color
  semantics : Option String
deriving DecidableEq, Repr

/-! ## Half-block renderer: building the cell grid
(`TerminalWindow::draw`, src/flt/src/terminal_window.rs lines 161-352) -/

/-- Lookup in `TerminalWindow::semantics`, a `HashMap<(usize,usize),String>`
built by `collect()`, where a later pair overrides an earlier one. -/
def semLookup (m : List ((Nat × Nat) × String)) (k : Nat × Nat) : Option String :=
  m.foldl (fun acc p => if p.1 = k then some p.2 else acc) none

/-- `grid_with_semantics`: pair every pixel with the semantics label stored
for its (x, y) position. -/
def gridWithSemantics (semantics : List ((Nat × Nat) × String))
    (pixelGrid : List (List Pixel)) : List (List (Pixel × Option String)) :=
  pixelGrid.enum.map fun (y, row) =>
    row.enum.map fun (x, pixel) => (pixel, semLookup semantics (x, y))

/-- `grid_for_terminal`: size-clamp/letterbox the source grid to
`pixelWidth × pixelHeight` using the signed offset as a crop window;
out-of-range samples become a zero pixel with no label.  The in-range branch
indexes `grid_with_semantics[y][x]` directly (bounds established by the
preceding checks against the grid length and first-row length); `getD`
supplies the same value there. -/
def gridForTerminal (gws : List (List (Pixel × Option String)))
    (pixelWidth pixelHeight : Nat) (xOffset yOffset : Int) :
    List (List (Pixel × Option String)) :=
  (List.range pixelHeight).map fun y =>
    let yi : Int := yOffset + (y : Int)
    if yi < 0 ∨ (gws.length : Int) ≤ yi then
      List.replicate pixelWidth (Pixel.zero, none)
    else
      (List.range pixelWidth).map fun x =>
        let xi : Int := xOffset + (x : Int)
        if xi < 0 ∨ (((gws.head?.getD []).length : Int)) ≤ xi then (Pixel.zero, none)
        else (gws.getD yi.toNat []).getD xi.toNat (Pixel.zero, none)

/-- One packed cell: upper pixel becomes the foreground color, lower pixel
the background color; the overlay label is the longer of the two labels when
both halves carry one. -/
def mkTerminalCell (top bottom : Pixel × Option String) : TerminalCell :=
  let semantics :=
    match top.2, bottom.2 with
    | none, none => none
    | none, some right => some right
    | some left, none => some left
    | some left, some right => some (if left.length > right.length then left else right)
  { top := toColor top.1, bottom := toColor bottom.1, semantics := semantics }

/-- The `(0..len).step_by(2)` packing loop: rows `y` and `y+1` are zipped into
one cell row.  With an odd number of rows the source indexes
`grid_for_terminal[y + 1]` out of bounds (a panic), modelled as `none`. -/
def packRows : List (List (Pixel × Option String)) → Option (List (List TerminalCell))
  | [] => some []
  | [_] => none
  | tops :: bottoms :: rest =>
    match packRows rest with
    | none => none
    | some ls => some ((List.zip tops bottoms).map (fun p => mkTerminalCell p.1 p.2) :: ls)

/-- Builds the candidate cell grid for one frame, as `draw` does before
diffing. -/
def buildLines (semantics : List ((Nat × Nat) × String)) (pixelGrid : List (List Pixel))
    (pixelWidth pixelHeight : Nat) (xOffset yOffset : Int) :
    Option (List (List TerminalCell)) :=
  packRows (gridForTerminal (gridWithSemantics semantics pixelGrid)
    pixelWidth pixelHeight xOffset yOffset)

/-! ## Half-block renderer: frame diff
(src/flt/src/terminal_window.rs lines 269-297) -/

/-- Inner diff loop over one row (`for (x, current_cell) in current.enumerate()`):
a cursor-move + styled-glyph write is queued for column `x` unless the cached
row has an equal cell at `x` (`prev.get(x).filter(|p| p == cell).is_some()`). -/
def rowWritesGo (prevRow : List TerminalCell) : Nat → List TerminalCell → List Nat
  | _, [] => []
  | x, cell :: rest =>
    if prevRow.get? x = some cell then rowWritesGo prevRow (x + 1) rest
    else x :: rowWritesGo prevRow (x + 1) rest

/-- Columns of one row that receive a styled-glyph write. -/
def rowWrites (prevRow curRow : List TerminalCell) : List Nat :=
  rowWritesGo prevRow 0 curRow

/-- Outer diff loop (`for (y, (prev, current)) in zip(&self.lines, &lines)`):
`zip` truncates to the shorter list. -/
def drawWritesGo : Nat → List (List TerminalCell) → List (List TerminalCell) →
    List (Nat × Nat)
  | _, _, [] => []
  | _, [], _ :: _ => []
  | y, prevRow :: prevRest, curRow :: curRest =>
    (rowWrites prevRow curRow).map (fun x => (x, y)) ++ drawWritesGo (y + 1) prevRest curRest

/-- The cache actually diffed against: when the row count changed,
`self.lines = vec![vec![]; lines.len()]` first replaces the cache with empty
rows. -/
def effectiveCache (prevLines lines : List (List TerminalCell)) :
    List (List TerminalCell) :=
  if prevLines.length ≠ lines.length then List.replicate lines.length [] else prevLines

/-- The set (list) of `(x, y)` cells that get a cursor-move + styled-glyph
write when drawing `lines` against the cached `prevLines`. -/
def drawWrites (prevLines lines : List (List TerminalCell)) : List (Nat × Nat) :=
  drawWritesGo 0 (effectiveCache prevLines lines) lines

/-- `TerminalWindow::mark_dirty` (src/flt/src/terminal_window.rs
lines 480-482): clears the cached lines. -/
def markDirty (_lines : List (List TerminalCell)) : List (List TerminalCell) := []

/-! ## Terminal events (crossterm data classes, as used by
src/flt/src/terminal_window.rs and src/flt/src/terminal_event.rs) -/

/-- `crossterm::event::KeyModifiers` restricted to the three flag bits the
crate can observe; `CONTROL_KEY` compares with `==`, so the whole set
matters. -/
structure KeyModifiers where
  shift : Bool
  control : Bool
  alt : Bool
deriving DecidableEq, Repr

/-- `CONTROL_KEY: KeyModifiers = KeyModifiers::CONTROL`
(src/flt/src/terminal_event.rs line 11). -/
def controlKey : KeyModifiers := ⟨false, true, false⟩

/-- `KeyModifiers::NONE`. -/
def noModifiers : KeyModifiers := ⟨false, false, false⟩

inductive MouseButton where
  | left
  | right
  | middle
deriving DecidableEq, Repr

inductive MouseEventKind where
  | down (button : MouseButton)
  | up (button : MouseButton)
  | drag (button : MouseButton)
  | moved
  | scrollDown
  | scrollUp
deriving DecidableEq, Repr

/-- `crossterm::event::MouseEvent`; `column`/`row` are `u16`, modelled as
`Nat`. -/
structure MouseEvent where
  kind : MouseEventKind
  column : Nat
  row : Nat
  modifiers : KeyModifiers
deriving DecidableEq, Repr

inductive KeyCode where
  | char (c : Char)
  | other
deriving DecidableEq, Repr

structure KeyEvent where
  code : KeyCode
  modifiers : KeyModifiers
deriving DecidableEq, Repr

/-- `crossterm::event::Event`. -/
inductive Event where
  | focusGained
  | focusLost
  | key (e : KeyEvent)
  | mouse (e : MouseEvent)
  | paste (s : String)
  | resize (columns rows : Nat)
deriving DecidableEq, Repr

/-- `normalize_event_height` (src/flt/src/terminal_window.rs lines 494-510):
scales mouse coordinates and resize dimensions from terminal cells into
pixel-equivalent units.  The resize branch first computes
`rows - LOGGING_WINDOW_HEIGHT as u16`, an unguarded `u16` subtraction,
modelled as `none` when it would underflow. -/
def normalizeEventHeight (event : Event) (xScale yScale : ℚ) : Option Event :=
  match event with
  | .resize columns rows =>
    if rows < loggingWindowHeight then none
    else
      let rows := rows - loggingWindowHeight
      some (.resize (toU16 (roundF ((columns : ℚ) * xScale)))
        (toU16 (roundF ((rows : ℚ) * yScale))))
  | .mouse e =>
    some (.mouse { e with
      column := toU16 (roundF ((e.column : ℚ) * xScale))
      row := toU16 (roundF ((e.row : ℚ) * yScale)) })
  | x => some x

/-! ## Engine-bound calls (src/flutter-sys/src/engine.rs,
src/flutter-sys/src/pointer.rs) -/

inductive FlutterPointerPhase where
  | up
  | down
  | hover
deriving DecidableEq, Repr

inductive FlutterPointerSignalKind where
  | none
  | scroll
deriving DecidableEq, Repr

inductive FlutterPointerMouseButton where
  | left
  | right
  | middle
deriving DecidableEq, Repr

/-- `to_mouse_button` (src/flt/src/terminal_event.rs lines 179-185). -/
def toFlutterMouseButton : MouseButton → FlutterPointerMouseButton
  | .left => .left
  | .right => .right
  | .middle => .middle

/-- An outbound call made on the `FlutterEngine` handle.  Width/height of a
window-metrics event are the `usize` values passed to
`FlutterEngine::send_window_metrics_event`; coordinates, deltas and pixel
ratios are `f64`, modelled as `ℚ`. -/
inductive EngineCall where
  | sendWindowMetrics (width height : Nat) (pixelRatio : ℚ)
  | sendPointerEvent (phase : FlutterPointerPhase) (x y : ℚ)
      (signalKind : FlutterPointerSignalKind) (scrollDeltaY : ℚ)
      (buttons : List FlutterPointerMouseButton)
  | scheduleFrame
  | updateSemanticsEnabled (enabled : Bool)
deriving DecidableEq, Repr

/-! ## Embedder state and the input translator
(src/flt/src/embedder.rs, src/flt/src/terminal_event.rs,
src/flt/src/event.rs) -/

/-- The mutable state of `TerminalEmbedder` that the claims are about, plus
the two `TerminalWindow` caches it mutates (`lines`, `semantics`,
`showing_help`).  `f64` fields are `ℚ`; `isize` fields are `Int`. -/
structure EmbedderState where
  showSemantics : Bool
  shouldRun : Bool
  dimensions : Nat × Nat
  zoom : ℚ
  scale : ℚ
  windowOffset : Int × Int
  prevWindowOffset : Int × Int
  mouseDownPos : Int × Int
  showingHelp : Bool
  cachedLines : List (List TerminalCell)
  cachedSemantics : List ((Nat × Nat) × String)
deriving DecidableEq, Repr

/-- `TerminalEmbedder::reset_viewport` (src/flt/src/embedder.rs
lines 412-423).  `self.dimensions = self.terminal_window.size()` reads the
live terminal; the result of that call is passed in as `terminalSize`. -/
def resetViewport (terminalSize : Nat × Nat) (s : EmbedderState) :
    EmbedderState × List EngineCall :=
  ({ s with
      dimensions := terminalSize
      zoom := 1
      scale := 1
      windowOffset := (0, 0)
      prevWindowOffset := (0, 0)
      mouseDownPos := (0, 0)
      cachedLines := markDirty s.cachedLines },
    [EngineCall.scheduleFrame])

/-- `TerminalEmbedder::handle_control_char` (src/flt/src/terminal_event.rs
lines 144-176). -/
def handleControlChar (terminalSize : Nat × Nat) (code : KeyCode)
    (s : EmbedderState) : EmbedderState × List EngineCall :=
  match code with
  | .char c =>
    if c = 'c' then ({ s with shouldRun := false }, [])
    else if c = 'z' then
      let s := { s with showSemantics := ! s.showSemantics }
      if ! s.showSemantics then
        ({ s with cachedSemantics := [], cachedLines := markDirty s.cachedLines },
          [EngineCall.updateSemanticsEnabled s.showSemantics])
      else
        (s, [EngineCall.updateSemanticsEnabled s.showSemantics])
    else if c = 'r' then resetViewport terminalSize s
    else if c = '5' then
      ({ s with scale := s.scale * zoomFactor }, [EngineCall.scheduleFrame])
    else if c = '4' then
      ({ s with scale := s.scale / zoomFactor }, [EngineCall.scheduleFrame])
    else (s, [])
  | .other => (s, [])

/-- `TerminalWindow::toggle_show_help` (src/flt/src/terminal_window.rs
lines 441-478): flips the flag, clears the screen and marks the frame cache
dirty. -/
def toggleShowHelp (s : EmbedderState) : EmbedderState :=
  { s with showingHelp := ! s.showingHelp, cachedLines := markDirty s.cachedLines }

/-- `TerminalEmbedder::handle_terminal_event` (src/flt/src/terminal_event.rs
lines 14-142).  `FocusGained`, `FocusLost` and `Paste` hit `todo!()` (a
panic), modelled as `none`. -/
def handleTerminalEvent (terminalSize : Nat × Nat) (event : Event)
    (s : EmbedderState) : Option (EmbedderState × List EngineCall) :=
  match event with
  | .focusGained => none
  | .focusLost => none
  | .paste _ => none
  | .key ⟨code, modifiers⟩ =>
    if modifiers = controlKey then some (handleControlChar terminalSize code s)
    else if code = .char '?' then some (toggleShowHelp s, [])
    else some (s, [])
  | .mouse ⟨kind, column, row, modifiers⟩ =>
    if modifiers = controlKey then
      match kind with
      | .down .left =>
        some ({ s with
            mouseDownPos := ((column : Int), (row : Int))
            prevWindowOffset := s.windowOffset }, [])
      | .drag .left =>
        let delta := ((column : Int) - s.mouseDownPos.1, (row : Int) - s.mouseDownPos.2)
        some ({ s with windowOffset :=
            (s.prevWindowOffset.1 - delta.1, s.prevWindowOffset.2 - delta.2) },
          [EngineCall.scheduleFrame])
      | .scrollUp =>
        some ({ s with zoom := s.zoom * zoomFactor }, [EngineCall.scheduleFrame])
      | .scrollDown =>
        some ({ s with zoom := s.zoom / zoomFactor }, [EngineCall.scheduleFrame])
      | _ => some (s, [])
    else
      let x : ℚ := (column : ℚ) + (s.windowOffset.1 : ℚ)
      let y : ℚ := (row : ℚ) + (s.windowOffset.2 : ℚ)
      match kind with
      | .down b =>
        some (s, [.sendPointerEvent .down x y .none 0 [toFlutterMouseButton b]])
      | .up b =>
        some (s, [.sendPointerEvent .up x y .none 0 [toFlutterMouseButton b]])
      | .drag _ => some (s, [])
      | .moved => some (s, [.sendPointerEvent .hover x y .none 0 []])
      | .scrollUp => some (s, [.sendPointerEvent .up x y .scroll (-scrollDelta) []])
      | .scrollDown => some (s, [.sendPointerEvent .down x y .scroll scrollDelta []])
  | .resize columns rows =>
    some ({ s with
        dimensions := (columns, rows)
        cachedLines := markDirty s.cachedLines },
      [EngineCall.scheduleFrame])

/-- The window-metrics event the `Draw` branch of
`TerminalEmbedder::run_event_loop` (src/flt/src/event.rs lines 40-53)
re-issues on every frame: width/height are `(dimensions × zoom).round()` and
the pixel ratio is `device_pixel_ratio × zoom × scale`, where
`devicePixelRatio` is `TerminalWindow::device_pixel_ratio()`
(src/flt/src/terminal_window.rs lines 139-141). -/
def drawWindowMetrics (devicePixelRatio : ℚ) (s : EmbedderState) : EngineCall :=
  .sendWindowMetrics
    (roundF ((s.dimensions.1 : ℚ) * s.zoom)).toNat
    (roundF ((s.dimensions.2 : ℚ) * s.zoom)).toNat
    (devicePixelRatio * s.zoom * s.scale)

/-- The engine calls made while handling one `Draw` event: the window-metrics
event is (re)issued before the frame is drawn to the terminal. -/
def handleDrawEvent (devicePixelRatio : ℚ) (s : EmbedderState) :
    EmbedderState × List EngineCall :=
  (s, [drawWindowMetrics devicePixelRatio s])

/-! ## Semantics tree (src/flt/src/semantics.rs,
src/flutter-sys/src/semantics.rs) -/

inductive FlutterSemanticsFlag where
  | hasCheckedState
  | isChecked
  | isSelected
  | isButton
  | isTextField
  | isFocused
  | hasEnabledState
  | isEnabled
  | isInMutuallyExclusiveGroup
  | isHeader
  | isObscured
  | scopesRoute
  | namesRoute
  | isHidden
  | isImage
  | isLiveRegion
  | hasToggledState
  | isToggled
  | hasImplicitScrolling
  | isMultiline
  | isReadOnly
  | isFocusable
  | isLink
  | isSlider
  | isKeyboardKey
  | isCheckStateMixed
deriving DecidableEq, Repr

/-- `sys::FlutterRect`, `f64` fields as `ℚ`. -/
structure FlutterRect where
  left : ℚ
  top : ℚ
  right : ℚ
  bottom : ℚ
deriving DecidableEq, Repr

/-- `FlutterSemanticsNode` (src/flutter-sys/src/semantics.rs lines 138-146);
the flag `HashSet` is modelled as a list queried with `contains`. -/
structure FlutterSemanticsNode where
  label : String
  flags : List FlutterSemanticsFlag
  value : String
  rect : FlutterRect
  transform : FlutterTransformation
deriving DecidableEq, Repr

/-- `SemanticsUpdate { id, children, node }`. -/
structure SemanticsUpdate where
  id : Int
  children : List Int
  node : FlutterSemanticsNode
deriving DecidableEq, Repr

/-- `FlutterSemanticsTree` (src/flt/src/semantics.rs lines 11-14): the two
`HashMap`s are modelled as association lists where the most recent insert
shadows older bindings (`List.lookup` returns the first, i.e. newest,
match). -/
structure FlutterSemanticsTree where
  idMap : List (Int × FlutterSemanticsNode)
  adjacencyList : List (Int × List Int)
deriving DecidableEq, Repr

/-- `FlutterSemanticsTree::new`. -/
def FlutterSemanticsTree.new : FlutterSemanticsTree := ⟨[], []⟩

/-- `FlutterSemanticsTree::update` (src/flt/src/semantics.rs lines 24-30):
each update inserts into both maps, replacing only the entries it names. -/
def FlutterSemanticsTree.update (t : FlutterSemanticsTree)
    (updates : List SemanticsUpdate) : FlutterSemanticsTree :=
  updates.foldl
    (fun t u => ⟨(u.id, u.node) :: t.idMap, (u.id, u.children) :: t.adjacencyList⟩) t

/-- `ROOT_ID: i32 = 0`. -/
def rootId : Int := 0

/-- `GraphNode` (src/flt/src/semantics.rs lines 5-9). -/
inductive GraphNode where
  | mk (current : FlutterSemanticsNode) (children : List GraphNode)

/-- Result of the recursive traversal `as_graph_recur`: the Rust code
`unwrap`s the two map lookups (modelled as `panicked`) and recurses without a
termination guarantee (modelled with fuel; `outOfFuel` stands for a recursion
that did not finish within the given depth budget). -/
inductive TravResult where
  | ok (g : GraphNode)
  | panicked
  | outOfFuel

/-- Result of traversing a list of child ids in order: the first failure
wins, as in the Rust `map` over `children`. -/
inductive TravListResult where
  | ok (gs : List GraphNode)
  | panicked
  | outOfFuel

mutual

/-- `FlutterSemanticsTree::as_graph_recur` (src/flt/src/semantics.rs
lines 36-48): look up the node (`unwrap`), look up the children list
(`unwrap`), traverse every child in order. -/
def asGraphRecur (t : FlutterSemanticsTree) : Nat → Int → TravResult
  | 0, _ => .outOfFuel
  | fuel + 1, id =>
    match t.idMap.lookup id with
    | none => .panicked
    | some current =>
      match t.adjacencyList.lookup id with
      | none => .panicked
      | some childIds =>
        match asGraphChildren t fuel childIds with
        | .ok gs => .ok (.mk current gs)
        | .panicked => .panicked
        | .outOfFuel => .outOfFuel

def asGraphChildren (t : FlutterSemanticsTree) : Nat → List Int → TravListResult
  | _, [] => .ok []
  | fuel, c :: cs =>
    match asGraphRecur t fuel c with
    | .ok g =>
      match asGraphChildren t fuel cs with
      | .ok gs => .ok (g :: gs)
      | .panicked => .panicked
      | .outOfFuel => .outOfFuel
    | .panicked => .panicked
    | .outOfFuel => .outOfFuel

end

/-- `FlutterSemanticsTree::as_graph`: traversal from the root id `0`. -/
def asGraph (t : FlutterSemanticsTree) (fuel : Nat) : TravResult :=
  asGraphRecur t fuel rootId

/-- `as_label_positions_recur` (src/flt/src/semantics.rs lines 57-87): merge
the node's transform into the parent's, emit
`((transX·scaleX).round() as usize, (transY·scaleY).round() as usize, label)`
unless the node is hidden or has an empty label, then recurse into the
children in order. -/
def asLabelPositionsRecur (parentMergedTransform : FlutterTransformation) :
    GraphNode → List ((Nat × Nat) × String)
  | .mk current children =>
    let transform := current.transform.mergeWith parentMergedTransform
    let cur :=
      if ¬ current.flags.contains .isHidden ∧ current.label ≠ "" then
        [(((roundF (transform.transX * transform.scaleX)).toNat,
            (roundF (transform.transY * transform.scaleY)).toNat), current.label)]
      else []
    cur ++ (children.attach.map fun c => asLabelPositionsRecur transform c.val).flatten
termination_by g => sizeOf g
decreasing_by
  simp_wf
  have := List.sizeOf_lt_of_mem c.2
  omega

/-- `FlutterSemanticsTree::as_label_positions` (src/flt/src/semantics.rs
lines 50-52): traverse from the root with the empty transform; a traversal
panic propagates. -/
def asLabelPositions (t : FlutterSemanticsTree) (fuel : Nat) :
    Option (List ((Nat × Nat) × String)) :=
  match asGraph t fuel with
  | .ok g => some (asLabelPositionsRecur FlutterTransformation.empty g)
  | _ => none

/-- Depth of a graph node; a traversal with fuel at least this depth cannot
run out of fuel on a consistent tree. -/
def GraphNode.depth : GraphNode → Nat
  | .mk _ children => 1 + (children.attach.map fun c => GraphNode.depth c.val).foldr max 0
termination_by g => sizeOf g
decreasing_by
  simp_wf
  have := List.sizeOf_lt_of_mem c.2
  omega

/-- The in-memory graph `g` is what the two maps of `t` describe at `id`:
the node entry and children entry are present, and the children line up
one-to-one with `g`'s subtrees. -/
inductive ConsistentAt (t : FlutterSemanticsTree) : Int → GraphNode → Prop where
  | mk (id : Int) (node : FlutterSemanticsNode) (childIds : List Int)
      (childGraphs : List GraphNode)
      (hnode : t.idMap.lookup id = some node)
      (hadj : t.adjacencyList.lookup id = some childIds)
      (hlen : childIds.length = childGraphs.length)
      (hchildren : ∀ p ∈ childIds.zip childGraphs, ConsistentAt t p.1 p.2) :
      ConsistentAt t id (.mk node childGraphs)

/-- `id` is transitively reachable from the root through the children lists
of nodes present in both maps. -/
inductive ReachableId (t : FlutterSemanticsTree) : Int → Prop where
  | root : ReachableId t rootId
  | child (id cid : Int) (node : FlutterSemanticsNode) (childIds : List Int)
      (hr : ReachableId t id)
      (hnode : t.idMap.lookup id = some node)
      (hadj : t.adjacencyList.lookup id = some childIds)
      (hmem : cid ∈ childIds) :
      ReachableId t cid

/-! ## Concrete sample values used by witnesses and counterexamples -/

/-- The embedder state constructed in `TerminalEmbedder::new`
(src/flt/src/embedder.rs lines 374-395): `show_semantics: false`,
`should_run: true`, `dimensions: (0, 0)`, `zoom: 1.0`, `scale: 1.0`, all
offsets zero, empty caches. -/
def initialEmbedderState : EmbedderState where
  showSemantics := false
  shouldRun := true
  dimensions := (0, 0)
  zoom := 1
  scale := 1
  windowOffset := (0, 0)
  prevWindowOffset := (0, 0)
  mouseDownPos := (0, 0)
  showingHelp := false
  cachedLines := []
  cachedSemantics := []

/-- State after a Ctrl + left mouse-down at cell (3, 4) in the initial
state. -/
def panDownState : EmbedderState :=
  { initialEmbedderState with mouseDownPos := (3, 4), prevWindowOffset := (0, 0) }

/-- State after dragging to cell (5, 6) from `panDownState`. -/
def panDragState : EmbedderState :=
  { panDownState with windowOffset := (-2, -2) }

/-- State after a (normalized) resize event to 10 × 20 in the initial
state. -/
def resizeWitnessState : EmbedderState :=
  { initialEmbedderState with dimensions := (10, 20) }

/-- A 1 × 2 pixel frame (one packed half-block cell). -/
def cexPixelGrid : List (List Pixel) := [[⟨1, 2, 3, 255⟩], [⟨4, 5, 6, 255⟩]]

/-- A semantics node with a non-empty label and no flags. -/
def sampleSemanticsNode : FlutterSemanticsNode :=
  ⟨"label", [], "", ⟨0, 0, 0, 0⟩, FlutterTransformation.empty⟩

/-- A one-node semantics tree: the root (id 0) with no children. -/
def sampleSemanticsTree : FlutterSemanticsTree :=
  FlutterSemanticsTree.new.update [⟨0, [], sampleSemanticsNode⟩]

/-! ### Helper lemmas about the task scheduler -/

theorem runExpiredTasksGo_all_ok (now : Nat) :
    ∀ (q ran notRun : List EngineTask),
      (∀ t ∈ q, canRunNow now t → t.runResult = .ok ()) →
      runExpiredTasksGo now q ran notRun =
        ⟨.ok (), ran ++ q.filter (canRunNow now),
          notRun ++ q.filter (fun t => ! canRunNow now t)⟩ := by
  intro q
  induction q with
  | nil => intro ran notRun _; simp [runExpiredTasksGo]
  | cons t rest ih =>
    intro ran notRun h
    by_cases hc : canRunNow now t
    · have hok : t.runResult = .ok () := h t (by simp) hc
      simp only [runExpiredTasksGo, hc, if_true, hok]
      rw [ih (ran ++ [t]) notRun (fun u hu hcu => h u (by simp [hu]) hcu)]
      simp [List.filter, hc]
    · simp only [runExpiredTasksGo, hc, if_false]
      rw [ih ran (notRun ++ [t]) (fun u hu hcu => h u (by simp [hu]) hcu)]
      simp [List.filter, hc]

theorem runExpiredTasksGo_ran_subset (now : Nat) :
    ∀ (q ran notRun : List EngineTask) (t : EngineTask),
      t ∈ (runExpiredTasksGo now q ran notRun).ran → t ∈ ran ∨ t ∈ q := by
  intro q
  induction q with
  | nil => intro ran notRun t h; simp [runExpiredTasksGo] at h; exact Or.inl h
  | cons u rest ih =>
    intro ran notRun t h
    by_cases hc : canRunNow now u
    · simp only [runExpiredTasksGo, hc, if_true] at h
      cases hr : u.runResult with
      | error e =>
        rw [hr] at h
        simp at h
        rcases h with h | h
        · exact Or.inl h
        · exact Or.inr (by simp [h])
      | ok v =>
        cases v
        rw [hr] at h
        rcases ih (ran ++ [u]) notRun t h with h' | h'
        · simp at h'
          rcases h' with h' | h'
          · exact Or.inl h'
          · exact Or.inr (by simp [h'])
        · exact Or.inr (by simp [h'])
    · simp only [runExpiredTasksGo, hc, if_false] at h
      rcases ih ran (notRun ++ [u]) t h with h' | h'
      · exact Or.inl h'
      · exact Or.inr (by simp [h'])

/-! ### C1: failure semantics of `run_expired_tasks` -/

/-- **C1.** The claim says: when an expired task's run returns an error,
`run_expired_tasks` returns that error to its caller and every task that was
not yet attempted is still present in the queue afterwards.  The error is
indeed propagated, but the queue is *not* preserved: the `?` early return
drops the `Vec::drain` iterator, which empties `self.tasks`, and the local
`not_run_tasks` vector is dropped too.  Evaluation at the failing input: at
clock 1, a queue holding an expired task whose run fails followed by a
not-yet-expired task (fire time 100) ends with the error returned and an
*empty* queue — the unattempted future task is gone and can never be run by
a later poll. -/
theorem run_expired_error_empties_queue :
    runExpiredTasks 1 [⟨0, .error .internalConsistency⟩, ⟨100, .ok ()⟩] =
      ⟨.error .internalConsistency, [⟨0, .error .internalConsistency⟩], []⟩ := by
  decide

/-! ### C3: task expiry -/

/-- **C3** counterexample: the claim says `can_run_now` is true iff
`fire_time ≤` the current clock.  The source comparison is strict
(`self.target_time_nanos < current_time_nanos`), so a task whose fire time
*equals* the clock is not runnable yet: `run_expired_tasks` at clock 5 runs
nothing and leaves the task queued. -/
theorem canRunNow_false_at_exact_fire_time :
    ¬ (canRunNow 5 ⟨5, .ok ()⟩ = true ↔ (5 : Nat) ≤ 5)
    ∧ (runExpiredTasks 5 [⟨5, .ok ()⟩]).ran = []
    ∧ (runExpiredTasks 5 [⟨5, .ok ()⟩]).tasks = [⟨5, .ok ()⟩] := by
  decide

/-- **C3** (amended): `can_run_now` returns true iff the task's fire time is
*strictly* less than the current Engine clock.  Consequently (on a queue
whose expired tasks all run successfully) `run_expired_tasks` runs exactly
the strictly-expired tasks and re-enqueues the rest: a task with
`fire_time ≥ clock` is never run and stays queued, and a strictly expired
task is run exactly as many times as it is queued (once, for a task queued
once), is removed from the queue, and can never be run by a later poll
(every task a poll runs comes from its queue). -/
theorem canRunNow_strict_and_task_expiry (now : Nat) (t : EngineTask)
    (q : List EngineTask)
    (hq : ∀ u ∈ q, canRunNow now u → u.runResult = .ok ()) :
    (canRunNow now t = true ↔ t.targetTimeNanos < now)
    ∧ (runExpiredTasks now q).result = .ok ()
    ∧ (runExpiredTasks now q).ran = q.filter (canRunNow now)
    ∧ (runExpiredTasks now q).tasks = q.filter (fun u => ! canRunNow now u)
    ∧ (t.targetTimeNanos < now →
        (runExpiredTasks now q).ran.count t = q.count t
        ∧ t ∉ (runExpiredTasks now q).tasks)
    ∧ (¬ t.targetTimeNanos < now →
        t ∉ (runExpiredTasks now q).ran
        ∧ (t ∈ q → t ∈ (runExpiredTasks now q).tasks))
    ∧ (∀ (now2 : Nat) (q2 : List EngineTask), t ∉ q2 →
        t ∉ (runExpiredTasks now2 q2).ran) := by
  have hchar : runExpiredTasks now q =
      ⟨.ok (), q.filter (canRunNow now), q.filter (fun u => ! canRunNow now u)⟩ := by
    have h := runExpiredTasksGo_all_ok now q [] [] hq
    simpa [runExpiredTasks] using h
  refine ⟨by simp [canRunNow], by rw [hchar], by rw [hchar], by rw [hchar], ?_, ?_, ?_⟩
  · intro hlt
    have hcan : canRunNow now t = true := by simpa [canRunNow] using hlt
    constructor
    · rw [hchar]
      simpa using List.count_filter (p := canRunNow now) (l := q) (by simpa using hcan)
    · rw [hchar]
      intro hmem
      have := (List.mem_filter.mp hmem).2
      simp [hcan] at this
  · intro hnlt
    have hcan : canRunNow now t = false := by simpa [canRunNow] using hnlt
    constructor
    · rw [hchar]
      intro hmem
      have := (List.mem_filter.mp hmem).2
      simp [hcan] at this
    · intro hmem
      rw [hchar]
      exact List.mem_filter.mpr ⟨hmem, by simp [hcan]⟩
  · intro now2 q2 hnot hmem
    rcases runExpiredTasksGo_ran_subset now2 q2 [] [] t hmem with h | h
    · simp at h
    · exact hnot h

/-- Witness for `canRunNow_strict_and_task_expiry`: at clock 3 a queue with
an expired task (fire time 0) and a deferred task (fire time 9) runs the
first and keeps the second. -/
theorem canRunNow_strict_and_task_expiry_witness :
    (runExpiredTasks 3 [⟨0, .ok ()⟩, ⟨9, .ok ()⟩]).ran = [⟨0, .ok ()⟩]
    ∧ (runExpiredTasks 3 [⟨0, .ok ()⟩, ⟨9, .ok ()⟩]).tasks = [⟨9, .ok ()⟩] := by
  have h := canRunNow_strict_and_task_expiry 3 ⟨0, .ok ()⟩
    [⟨0, .ok ()⟩, ⟨9, .ok ()⟩] (by decide)
  exact ⟨by rw [h.2.2.1]; decide, by rw [h.2.2.2.1]; decide⟩

/-! ### C4: transform composition -/

/-- **C4** counterexample: the claim says merging any transform T with the
identity transform (scale 1, translation 0 — the `empty()` transform) yields
T unchanged.  `merge_with` *multiplies* the skew and perspective terms, and
`empty()` has `skewX = skewY = pers0 = pers1 = 0`, so a transform with
`skewX = 1` comes back with `skewX = 0`: not T, in either merge order. -/
theorem mergeWith_identity_zeroes_skew :
    skewedTransformation.mergeWith FlutterTransformation.empty ≠ skewedTransformation
    ∧ FlutterTransformation.empty.mergeWith skewedTransformation ≠ skewedTransformation
    ∧ (skewedTransformation.mergeWith FlutterTransformation.empty).skewX = 0
    ∧ skewedTransformation.skewX = 1 := by
  refine ⟨?_, ?_,
    by simp [FlutterTransformation.mergeWith, FlutterTransformation.empty,
      skewedTransformation], rfl⟩
  · intro h
    have := congrArg FlutterTransformation.skewX h
    simp [FlutterTransformation.mergeWith, FlutterTransformation.empty,
      skewedTransformation] at this
  · intro h
    have := congrArg FlutterTransformation.skewX h
    simp [FlutterTransformation.mergeWith, FlutterTransformation.empty,
      skewedTransformation] at this

/-- **C4** (amended): merging T with the identity (`empty()`) transform
preserves the scale components, the translation components and `pers2`, but
multiplies `skewX`, `skewY`, `pers0`, `pers1` by the identity's zeros — so T
is returned unchanged exactly when its skew and `pers0`/`pers1` terms are
zero.  For any two transforms the translation component of the merge is
commutative (translations add), and merging two transforms multiplies their
scale components. -/
theorem mergeWith_identity_translation_scale (T U : FlutterTransformation) :
    ((T.mergeWith .empty).scaleX = T.scaleX
      ∧ (T.mergeWith .empty).scaleY = T.scaleY
      ∧ (T.mergeWith .empty).transX = T.transX
      ∧ (T.mergeWith .empty).transY = T.transY
      ∧ (T.mergeWith .empty).pers2 = T.pers2
      ∧ (T.mergeWith .empty).skewX = 0
      ∧ (T.mergeWith .empty).skewY = 0
      ∧ (T.mergeWith .empty).pers0 = 0
      ∧ (T.mergeWith .empty).pers1 = 0)
    ∧ (T.skewX = 0 → T.skewY = 0 → T.pers0 = 0 → T.pers1 = 0 →
        T.mergeWith .empty = T)
    ∧ ((T.mergeWith U).transX = (U.mergeWith T).transX
      ∧ (T.mergeWith U).transY = (U.mergeWith T).transY
      ∧ (T.mergeWith U).scaleX = T.scaleX * U.scaleX
      ∧ (T.mergeWith U).scaleY = T.scaleY * U.scaleY) := by
  refine ⟨?_, ?_, ?_⟩
  · simp [FlutterTransformation.mergeWith, FlutterTransformation.empty]
  · intro h1 h2 h3 h4
    cases T
    simp_all [FlutterTransformation.mergeWith, FlutterTransformation.empty]
  · refine ⟨?_, ?_, rfl, rfl⟩ <;>
      simp [FlutterTransformation.mergeWith, add_comm]

/-- Witness for `mergeWith_identity_translation_scale`: the identity itself
has zero skew and perspective terms, so merging it with itself returns it
unchanged. -/
theorem mergeWith_identity_translation_scale_witness :
    FlutterTransformation.empty.mergeWith FlutterTransformation.empty =
      FlutterTransformation.empty :=
  (mergeWith_identity_translation_scale FlutterTransformation.empty
    FlutterTransformation.empty).2.1 rfl rfl rfl rfl

/-! ### C5: pan math -/

/-- **C5.** A Ctrl + left mouse-down at cell A = (ac, ar) records the drag
anchor and the pre-drag offset O; a subsequent Ctrl + left drag at
P = (pc, pr) sets the viewport offset to exactly `O − (P − A)` in `isize`
arithmetic, and in particular the offset round-trips back to O when
P = A. -/
theorem pan_drag_offset_formula (terminalSize : Nat × Nat) (s : EmbedderState)
    (ac ar pc pr : Nat) (s1 : EmbedderState) (calls1 : List EngineCall)
    (s2 : EmbedderState) (calls2 : List EngineCall)
    (hdown : handleTerminalEvent terminalSize
      (.mouse ⟨.down .left, ac, ar, controlKey⟩) s = some (s1, calls1))
    (hdrag : handleTerminalEvent terminalSize
      (.mouse ⟨.drag .left, pc, pr, controlKey⟩) s1 = some (s2, calls2)) :
    s2.windowOffset =
      (s.windowOffset.1 - ((pc : Int) - (ac : Int)),
        s.windowOffset.2 - ((pr : Int) - (ar : Int)))
    ∧ (pc = ac → pr = ar → s2.windowOffset = s.windowOffset) := by
  simp only [handleTerminalEvent, if_pos rfl, Option.some.injEq, Prod.mk.injEq] at hdown hdrag
  obtain ⟨rfl, -⟩ := hdown
  obtain ⟨rfl, -⟩ := hdrag
  constructor
  · rfl
  · rintro rfl rfl
    have : s.windowOffset = (s.windowOffset.1, s.windowOffset.2) := rfl
    rw [this]
    simp

/-- Witness for `pan_drag_offset_formula`: mouse-down at (3, 4) then drag to
(5, 6) from the initial state moves the offset from (0, 0) to (−2, −2). -/
theorem pan_drag_offset_formula_witness :
    panDragState.windowOffset = (-2, -2) := by
  have h := pan_drag_offset_formula (0, 0) initialEmbedderState 3 4 5 6
    panDownState [] panDragState [EngineCall.scheduleFrame]
    (by simp [handleTerminalEvent, initialEmbedderState, panDownState])
    (by simp [handleTerminalEvent, panDownState, panDragState])
  rw [h.1]
  simp [initialEmbedderState]

/-! ### C7: viewport reset -/

/-- **C7.** `reset_viewport` sets zoom to 1.0, scale to 1.0 and the pan
offset to (0, 0), marks the frame cache dirty, and schedules a frame; the
window-metrics event (re)issued when that frame's `Draw` event is handled has
pixel ratio `device_pixel_ratio × 1 × 1`, i.e. exactly the unmodified base
device-pixel-ratio (and width/height equal to the rounded terminal pixel
size). -/
theorem reset_viewport_identity (terminalSize : Nat × Nat) (s : EmbedderState)
    (dpr : ℚ) :
    (resetViewport terminalSize s).1.zoom = 1
    ∧ (resetViewport terminalSize s).1.scale = 1
    ∧ (resetViewport terminalSize s).1.windowOffset = (0, 0)
    ∧ (resetViewport terminalSize s).1.cachedLines = []
    ∧ (resetViewport terminalSize s).2 = [EngineCall.scheduleFrame]
    ∧ drawWindowMetrics dpr (resetViewport terminalSize s).1 =
        .sendWindowMetrics (roundF (terminalSize.1 : ℚ)).toNat
          (roundF (terminalSize.2 : ℚ)).toNat dpr := by
  refine ⟨rfl, rfl, rfl, rfl, rfl, ?_⟩
  simp [drawWindowMetrics, resetViewport]

/-! ### C6: window metrics -/

/-- **C6.** The window-metrics event (re)issued to the Engine when a `Draw`
event is handled has width and height equal to `dimensions × zoom` rounded to
the nearest integer and pixel ratio equal to
`base device-pixel-ratio × zoom × scale`; and every terminal-event handler
that changes `dimensions`, `zoom` or `scale` (resize, Ctrl-zoom, Ctrl-4/5,
viewport reset) also calls `schedule_frame`, which is what triggers the next
`Draw` event and hence the re-issue. -/
theorem window_metrics_formula_and_reissue (dpr : ℚ) (s : EmbedderState)
    (terminalSize : Nat × Nat) (event : Event) (s2 : EmbedderState)
    (calls : List EngineCall) :
    (handleDrawEvent dpr s).2 =
      [.sendWindowMetrics (roundF ((s.dimensions.1 : ℚ) * s.zoom)).toNat
        (roundF ((s.dimensions.2 : ℚ) * s.zoom)).toNat
        (dpr * s.zoom * s.scale)]
    ∧ (handleTerminalEvent terminalSize event s = some (s2, calls) →
        s2.dimensions ≠ s.dimensions ∨ s2.zoom ≠ s.zoom ∨ s2.scale ≠ s.scale →
        EngineCall.scheduleFrame ∈ calls) := by
  constructor
  · rfl
  · intro h hchange
    match event with
    | .focusGained => simp [handleTerminalEvent] at h
    | .focusLost => simp [handleTerminalEvent] at h
    | .paste _ => simp [handleTerminalEvent] at h
    | .resize c r =>
      simp only [handleTerminalEvent, Option.some.injEq, Prod.mk.injEq] at h
      obtain ⟨rfl, rfl⟩ := h
      simp
    | .key ⟨code, modifiers⟩ =>
      simp only [handleTerminalEvent] at h
      by_cases hm : modifiers = controlKey
      · rw [if_pos hm] at h
        match code with
        | .other =>
          simp only [handleControlChar, Option.some.injEq, Prod.mk.injEq] at h
          obtain ⟨rfl, rfl⟩ := h
          simp at hchange
        | .char c =>
          simp only [handleControlChar] at h
          by_cases hc : c = 'c'
          · rw [if_pos hc] at h
            simp only [Option.some.injEq, Prod.mk.injEq] at h
            obtain ⟨rfl, rfl⟩ := h
            simp at hchange
          · rw [if_neg hc] at h
            by_cases hz : c = 'z'
            · rw [if_pos hz] at h
              by_cases hss : (! s.showSemantics) = true
              all_goals
                simp only [hss, if_pos, if_neg, Bool.not_eq_true,
                  Option.some.injEq, Prod.mk.injEq, if_true, if_false] at h
              all_goals
                obtain ⟨rfl, rfl⟩ := h
              all_goals simp at hchange
            · rw [if_neg hz] at h
              by_cases hr : c = 'r'
              · rw [if_pos hr] at h
                simp only [resetViewport, Option.some.injEq, Prod.mk.injEq] at h
                obtain ⟨rfl, rfl⟩ := h
                simp
              · rw [if_neg hr] at h
                by_cases h5 : c = '5'
                · rw [if_pos h5] at h
                  simp only [Option.some.injEq, Prod.mk.injEq] at h
                  obtain ⟨rfl, rfl⟩ := h
                  simp
                · rw [if_neg h5] at h
                  by_cases h4 : c = '4'
                  · rw [if_pos h4] at h
                    simp only [Option.some.injEq, Prod.mk.injEq] at h
                    obtain ⟨rfl, rfl⟩ := h
                    simp
                  · rw [if_neg h4] at h
                    simp only [Option.some.injEq, Prod.mk.injEq] at h
                    obtain ⟨rfl, rfl⟩ := h
                    simp at hchange
      · rw [if_neg hm] at h
        by_cases hq : code = .char '?'
        · rw [if_pos hq] at h
          simp only [toggleShowHelp, Option.some.injEq, Prod.mk.injEq] at h
          obtain ⟨rfl, rfl⟩ := h
          simp at hchange
        · rw [if_neg hq] at h
          simp only [Option.some.injEq, Prod.mk.injEq] at h
          obtain ⟨rfl, rfl⟩ := h
          simp at hchange
    | .mouse ⟨kind, column, row, modifiers⟩ =>
      simp only [handleTerminalEvent] at h
      by_cases hm : modifiers = controlKey
      · rw [if_pos hm] at h
        match kind with
        | .down .left =>
          simp only [Option.some.injEq, Prod.mk.injEq] at h
          obtain ⟨rfl, rfl⟩ := h
          simp at hchange
        | .down .right | .down .middle | .up _ | .moved
        | .drag .right | .drag .middle =>
          simp only [Option.some.injEq, Prod.mk.injEq] at h
          obtain ⟨rfl, rfl⟩ := h
          simp at hchange
        | .drag .left =>
          simp only [Option.some.injEq, Prod.mk.injEq] at h
          obtain ⟨rfl, rfl⟩ := h
          simp
        | .scrollUp =>
          simp only [Option.some.injEq, Prod.mk.injEq] at h
          obtain ⟨rfl, rfl⟩ := h
          simp
        | .scrollDown =>
          simp only [Option.some.injEq, Prod.mk.injEq] at h
          obtain ⟨rfl, rfl⟩ := h
          simp
      · rw [if_neg hm] at h
        match kind with
        | .down _ | .up _ | .drag _ | .moved | .scrollUp | .scrollDown =>
          simp only [Option.some.injEq, Prod.mk.injEq] at h
          obtain ⟨rfl, rfl⟩ := h
          simp at hchange

/-- Witness for `window_metrics_formula_and_reissue`: a resize to 10 × 20
from the initial state changes `dimensions` and the handler's calls include
`schedule_frame`. -/
theorem window_metrics_formula_and_reissue_witness :
    handleTerminalEvent (0, 0) (.resize 10 20) initialEmbedderState =
      some (resizeWitnessState, [EngineCall.scheduleFrame])
    ∧ EngineCall.scheduleFrame ∈ [EngineCall.scheduleFrame] := by
  have hh : handleTerminalEvent (0, 0) (.resize 10 20) initialEmbedderState =
      some (resizeWitnessState, [EngineCall.scheduleFrame]) := by
    simp [handleTerminalEvent, initialEmbedderState, resizeWitnessState, markDirty]
  refine ⟨hh, ?_⟩
  exact (window_metrics_formula_and_reissue 1 initialEmbedderState (0, 0)
    (.resize 10 20) resizeWitnessState [EngineCall.scheduleFrame]).2 hh
    (by simp [resizeWitnessState, initialEmbedderState])

/-! ### C8: scroll-up forwarding -/

/-- **C8.** A non-intercepted scroll-up terminal event at cell column 10,
row 5 is first normalized (cell coordinates scaled by the active
pixels-per-cell ratios and rounded), then forwarded to the Engine as a
pointer event with phase `Up`, signal kind `Scroll` and scroll delta
`−SCROLL_DELTA = −10.0`, at the normalized coordinates plus the current pan
offset.  With the half-block ratios (1 pixel per column, 2 per row) the
event at cell (10, 5) reaches the Engine at (10 + offset.x, 10 + offset.y)
— the cell position scaled exactly. -/
theorem scroll_up_forwarding (terminalSize : Nat × Nat) (s : EmbedderState)
    (m : KeyModifiers) (hm : m ≠ controlKey) (xScale yScale : ℚ) :
    normalizeEventHeight (.mouse ⟨.scrollUp, 10, 5, m⟩) xScale yScale =
      some (.mouse ⟨.scrollUp, toU16 (roundF (10 * xScale)),
        toU16 (roundF (5 * yScale)), m⟩)
    ∧ (∀ col row : Nat,
        handleTerminalEvent terminalSize (.mouse ⟨.scrollUp, col, row, m⟩) s =
          some (s, [.sendPointerEvent .up ((col : ℚ) + (s.windowOffset.1 : ℚ))
            ((row : ℚ) + (s.windowOffset.2 : ℚ)) .scroll (-scrollDelta) []]))
    ∧ normalizeEventHeight (.mouse ⟨.scrollUp, 10, 5, m⟩) 1 2 =
        some (.mouse ⟨.scrollUp, 10, 10, m⟩)
    ∧ handleTerminalEvent terminalSize (.mouse ⟨.scrollUp, 10, 10, m⟩) s =
        some (s, [.sendPointerEvent .up (10 + (s.windowOffset.1 : ℚ))
          (10 + (s.windowOffset.2 : ℚ)) .scroll (-10) []]) := by
  refine ⟨?_, ?_, ?_, ?_⟩
  · simp [normalizeEventHeight]
  · intro col row
    simp [handleTerminalEvent, hm]
  · norm_num [normalizeEventHeight, roundF, toU16]
    decide
  · simp [handleTerminalEvent, hm, scrollDelta]

/-- Witness for `scroll_up_forwarding`: no modifiers, initial state (pan
offset (0, 0)); the normalized event at (10, 10) reaches the Engine at
(10, 10). -/
theorem scroll_up_forwarding_witness :
    noModifiers ≠ controlKey
    ∧ handleTerminalEvent (0, 0) (.mouse ⟨.scrollUp, 10, 10, noModifiers⟩)
        initialEmbedderState =
      some (initialEmbedderState,
        [.sendPointerEvent .up 10 10 .scroll (-10) []]) := by
  refine ⟨by decide, ?_⟩
  have h := (scroll_up_forwarding (0, 0) initialEmbedderState noModifiers
    (by decide) 1 2).2.2.2
  rw [h]
  norm_num [initialEmbedderState]

/-! ### C10: logging-window subtraction -/

/-- **C10.** Both `TerminalWindow::size` and the resize branch of
`normalize_event_height` subtract the 4-line logging-window height from the
terminal's row count without a guard (unsigned subtraction), so they are
well-defined exactly when the terminal has at least `LOGGING_WINDOW_HEIGHT`
(4) rows; below that the subtraction underflows (modelled as `none`).  When
defined, `size` returns the column/row counts scaled by the pixels-per-cell
ratios and rounded. -/
theorem size_requires_four_rows (termCols termRows : Nat) (pc pr xs ys : ℚ) :
    ((terminalPixelSize termCols termRows pc pr).isSome ↔
      loggingWindowHeight ≤ termRows)
    ∧ ((normalizeEventHeight (.resize termCols termRows) xs ys).isSome ↔
      loggingWindowHeight ≤ termRows)
    ∧ (loggingWindowHeight ≤ termRows →
        terminalPixelSize termCols termRows pc pr =
          some ((roundF ((termCols : ℚ) * pc)).toNat,
            (roundF (((termRows - loggingWindowHeight : Nat) : ℚ) * pr)).toNat)) := by
  refine ⟨?_, ?_, ?_⟩
  · by_cases h : termRows < loggingWindowHeight
    · simp [terminalPixelSize, h]
    · simp [terminalPixelSize, h]
      omega
  · by_cases h : termRows < loggingWindowHeight
    · simp [normalizeEventHeight, h]
    · simp [normalizeEventHeight, h]
      omega
  · intro h
    simp [terminalPixelSize, Nat.not_lt.mpr h]

/-- Witness for `size_requires_four_rows`: an 80 × 28-cell terminal has a
well-defined pixel size, an 80 × 3-cell terminal does not. -/
theorem size_requires_four_rows_witness :
    (terminalPixelSize 80 28 1 2).isSome = true
    ∧ ¬ (terminalPixelSize 80 3 1 2).isSome = true := by
  constructor
  · exact (size_requires_four_rows 80 28 1 2 1 2).1.mpr (by decide)
  · intro hs
    exact absurd ((size_requires_four_rows 80 3 1 2 1 2).1.mp hs) (by decide)

/-! ### Lemmas about the half-block diff -/

theorem mem_rowWritesGo (prevRow : List TerminalCell) :
    ∀ (cur : List TerminalCell) (n x : Nat),
      x ∈ rowWritesGo prevRow n cur ↔
        ∃ i cell, cur.get? i = some cell ∧ x = n + i ∧
          prevRow.get? (n + i) ≠ some cell := by
  intro cur
  induction cur with
  | nil => intro n x; simp [rowWritesGo]
  | cons c rest ih =>
    intro n x
    simp only [rowWritesGo]
    by_cases hp : prevRow.get? n = some c
    · rw [if_pos hp, ih]
      constructor
      · rintro ⟨i, cell, hget, rfl, hne⟩
        refine ⟨i + 1, cell, by simpa using hget, by omega, ?_⟩
        have he : n + (i + 1) = n + 1 + i := by omega
        rw [he]; exact hne
      · rintro ⟨i, cell, hget, rfl, hne⟩
        match i, hget with
        | 0, hget =>
          rw [List.get?_cons_zero] at hget
          obtain rfl : c = cell := by injection hget
          exact absurd (by simpa using hp) hne
        | i + 1, hget =>
          refine ⟨i, cell, by simpa using hget, by omega, ?_⟩
          have he : n + 1 + i = n + (i + 1) := by omega
          rw [he]; exact hne
    · rw [if_neg hp]
      rw [List.mem_cons, ih]
      constructor
      · rintro (rfl | ⟨i, cell, hget, rfl, hne⟩)
        · exact ⟨0, c, rfl, by omega, by simpa using hp⟩
        · refine ⟨i + 1, cell, by simpa using hget, by omega, ?_⟩
          have he : n + (i + 1) = n + 1 + i := by omega
          rw [he]; exact hne
      · rintro ⟨i, cell, hget, rfl, hne⟩
        match i, hget with
        | 0, hget => left; omega
        | i + 1, hget =>
          right
          refine ⟨i, cell, by simpa using hget, by omega, ?_⟩
          have he : n + 1 + i = n + (i + 1) := by omega
          rw [he]; exact hne

theorem mem_rowWrites (prevRow curRow : List TerminalCell) (x : Nat) :
    x ∈ rowWrites prevRow curRow ↔
      ∃ cell, curRow.get? x = some cell ∧ prevRow.get? x ≠ some cell := by
  rw [rowWrites, mem_rowWritesGo]
  constructor
  · rintro ⟨i, cell, hget, rfl, hne⟩
    exact ⟨cell, by simpa using hget, by simpa using hne⟩
  · rintro ⟨cell, hget, hne⟩
    exact ⟨x, cell, hget, by omega, by simpa using hne⟩

theorem mem_drawWritesGo :
    ∀ (cur prev : List (List TerminalCell)) (k x y : Nat),
      (x, y) ∈ drawWritesGo k prev cur ↔
        ∃ j prow crow, prev.get? j = some prow ∧ cur.get? j = some crow
          ∧ y = k + j ∧ x ∈ rowWrites prow crow := by
  intro cur
  induction cur with
  | nil =>
    intro prev k x y
    cases prev <;> simp [drawWritesGo]
  | cons crow rest ih =>
    intro prev k x y
    cases prev with
    | nil => simp [drawWritesGo]
    | cons prow prest =>
      simp only [drawWritesGo, List.mem_append, List.mem_map, ih]
      constructor
      · rintro (⟨x0, hx0, heq⟩ | ⟨j, prow2, crow2, h1, h2, rfl, hx⟩)
        · obtain ⟨rfl, rfl⟩ := Prod.mk.injEq x0 k x y ▸ heq
          exact ⟨0, prow, crow, rfl, rfl, by omega, hx0⟩
        · exact ⟨j + 1, prow2, crow2, by simpa using h1, by simpa using h2,
            by omega, hx⟩
      · rintro ⟨j, prow2, crow2, h1, h2, rfl, hx⟩
        match j, h1, h2 with
        | 0, h1, h2 =>
          left
          rw [List.get?_cons_zero] at h1 h2
          obtain rfl : prow = prow2 := by injection h1
          obtain rfl : crow = crow2 := by injection h2
          exact ⟨x, hx, by simp⟩
        | j + 1, h1, h2 =>
          right
          exact ⟨j, prow2, crow2, by simpa using h1, by simpa using h2,
            by omega, hx⟩

theorem effectiveCache_length (prevLines lines : List (List TerminalCell)) :
    (effectiveCache prevLines lines).length = lines.length := by
  unfold effectiveCache
  split
  · simp
  · omega

/-! ### C2: half-block diff correctness -/

/-- **C2** counterexample: the claim says the diff writes exactly those
cells whose packed (foreground, background) color pair differs from the
cached cell. The comparison in `draw` is on whole `TerminalCell`s, whose
derived equality also covers the overlay `semantics` label: two frames built
from the *same* pixel buffer (so every cell's color pair is unchanged) but a
changed semantics overlay still get a styled-glyph rewrite at the affected
cell. -/
theorem draw_diff_label_only_rewrite :
    buildLines [((0, 0), "a")] cexPixelGrid 1 2 0 0 =
      some [[⟨⟨1, 2, 3⟩, ⟨4, 5, 6⟩, some "a"⟩]]
    ∧ buildLines [] cexPixelGrid 1 2 0 0 = some [[⟨⟨1, 2, 3⟩, ⟨4, 5, 6⟩, none⟩]]
    ∧ (⟨⟨1, 2, 3⟩, ⟨4, 5, 6⟩, some "a"⟩ : TerminalCell).top =
        (⟨⟨1, 2, 3⟩, ⟨4, 5, 6⟩, none⟩ : TerminalCell).top
    ∧ (⟨⟨1, 2, 3⟩, ⟨4, 5, 6⟩, some "a"⟩ : TerminalCell).bottom =
        (⟨⟨1, 2, 3⟩, ⟨4, 5, 6⟩, none⟩ : TerminalCell).bottom
    ∧ (0, 0) ∈ drawWrites [[⟨⟨1, 2, 3⟩, ⟨4, 5, 6⟩, some "a"⟩]]
        [[⟨⟨1, 2, 3⟩, ⟨4, 5, 6⟩, none⟩]] := by
  decide

/-- **C2** (amended): for two consecutive frames at the same terminal size
the half-block renderer writes (cursor-move plus styled glyph) exactly those
cells whose whole `TerminalCell` — the packed (foreground, background) color
pair *together with the overlay semantics label* — differs from the previous
frame's cached cell or has no cached counterpart; after the cache is cleared
(`mark_dirty`, which every terminal-size change triggers, and which the
in-`draw` row-count check replicates) every cell is written regardless of
whether its content equals the cached content. -/
theorem draw_diff_exactness (prevLines lines : List (List TerminalCell))
    (x y : Nat) :
    ((x, y) ∈ drawWrites prevLines lines ↔
      ∃ crow cell, lines.get? y = some crow ∧ crow.get? x = some cell
        ∧ ((effectiveCache prevLines lines).getD y []).get? x ≠ some cell)
    ∧ (∀ crow cell, lines.get? y = some crow → crow.get? x = some cell →
        (x, y) ∈ drawWrites (markDirty prevLines) lines)
    ∧ (∀ (terminalSize : Nat × Nat) (c r : Nat) (s : EmbedderState),
        (handleTerminalEvent terminalSize (.resize c r) s).map
          (fun p => p.1.cachedLines) = some (markDirty s.cachedLines)) := by
  have hlen := effectiveCache_length prevLines lines
  have hiff : (x, y) ∈ drawWrites prevLines lines ↔
      ∃ crow cell, lines.get? y = some crow ∧ crow.get? x = some cell
        ∧ ((effectiveCache prevLines lines).getD y []).get? x ≠ some cell := by
    rw [drawWrites, mem_drawWritesGo]
    constructor
    · rintro ⟨j, prow, crow, h1, h2, rfl, hx⟩
      rw [mem_rowWrites] at hx
      obtain ⟨cell, hc, hne⟩ := hx
      refine ⟨crow, cell, by simpa using h2, hc, ?_⟩
      rw [Nat.zero_add, List.getD_eq_get?, h1]
      exact hne
    · rintro ⟨crow, cell, hline, hcell, hne⟩
      have hy : y < lines.length := by
        by_contra hge
        rw [List.get?_eq_none.mpr (by omega)] at hline
        exact Option.noConfusion hline
      obtain ⟨prow, hprow⟩ : ∃ prow,
          (effectiveCache prevLines lines).get? y = some prow := by
        cases hh : (effectiveCache prevLines lines).get? y with
        | none =>
          rw [List.get?_eq_none] at hh
          omega
        | some prow => exact ⟨prow, rfl⟩
      refine ⟨y, prow, crow, hprow, hline, by omega, ?_⟩
      rw [mem_rowWrites]
      refine ⟨cell, hcell, ?_⟩
      rw [List.getD_eq_get?, hprow] at hne
      exact hne
  refine ⟨hiff, ?_, ?_⟩
  · intro crow cell hline hcell
    have hy : y < lines.length := by
      by_contra hge
      rw [List.get?_eq_none.mpr (by omega)] at hline
      exact Option.noConfusion hline
    have hne2 : lines ≠ [] := by
      intro h
      rw [h] at hy
      simp at hy
    have heff : effectiveCache (markDirty prevLines) lines =
        List.replicate lines.length [] := by
      unfold effectiveCache markDirty
      rw [if_pos]
      simp only [List.length_nil]
      intro h
      exact hne2 (List.length_eq_zero.mp h.symm)
    rw [drawWrites, heff, mem_drawWritesGo]
    have hrep : (List.replicate lines.length ([] : List TerminalCell)).get? y
        = some [] := by
      rw [List.get?_eq_some]
      exact ⟨by simpa using hy, List.get_replicate _ _⟩
    refine ⟨y, [], crow, hrep, hline, by omega, ?_⟩
    rw [mem_rowWrites]
    exact ⟨cell, hcell, by simp⟩
  · intro terminalSize c r s
    simp [handleTerminalEvent]

/-- Witness for `draw_diff_exactness`: after `mark_dirty` a cell whose
content equals the cached content is still rewritten. -/
theorem draw_diff_exactness_witness :
    (0, 0) ∈ drawWrites (markDirty [[⟨⟨1, 2, 3⟩, ⟨4, 5, 6⟩, none⟩]])
      [[⟨⟨1, 2, 3⟩, ⟨4, 5, 6⟩, none⟩]] :=
  (draw_diff_exactness [[⟨⟨1, 2, 3⟩, ⟨4, 5, 6⟩, none⟩]]
      [[⟨⟨1, 2, 3⟩, ⟨4, 5, 6⟩, none⟩]] 0 0).2.1
    [⟨⟨1, 2, 3⟩, ⟨4, 5, 6⟩, none⟩] ⟨⟨1, 2, 3⟩, ⟨4, 5, 6⟩, none⟩ rfl rfl

/-! ### Lemmas about the semantics-tree traversal -/

theorem GraphNode.depth_mk (node : FlutterSemanticsNode) (gs : List GraphNode) :
    GraphNode.depth (.mk node gs) = 1 + (gs.map GraphNode.depth).foldr max 0 := by
  rw [GraphNode.depth]
  rw [List.attach_map_coe]

theorem GraphNode.depth_child_lt (node : FlutterSemanticsNode)
    (gs : List GraphNode) (g : GraphNode) (h : g ∈ gs) :
    g.depth < GraphNode.depth (.mk node gs) := by
  rw [GraphNode.depth_mk]
  have hle : g.depth ≤ (gs.map GraphNode.depth).foldr max 0 :=
    List.le_max_of_le (List.mem_map_of_mem GraphNode.depth h) le_rfl
  omega

theorem asGraphChildren_of_consistent (t : FlutterSemanticsTree) (n : Nat)
    (ih : ∀ (id : Int) (g : GraphNode), ConsistentAt t id g →
      GraphNode.depth g ≤ n → asGraphRecur t n id = .ok g) :
    ∀ (childIds : List Int) (childGraphs : List GraphNode),
      childIds.length = childGraphs.length →
      (∀ p ∈ childIds.zip childGraphs, ConsistentAt t p.1 p.2) →
      (∀ g ∈ childGraphs, GraphNode.depth g ≤ n) →
      asGraphChildren t n childIds = .ok childGraphs := by
  intro childIds
  induction childIds with
  | nil =>
    intro childGraphs hlen _ _
    cases childGraphs with
    | nil => simp [asGraphChildren]
    | cons g gs => simp at hlen
  | cons c cs ihc =>
    intro childGraphs hlen hcons hdep
    cases childGraphs with
    | nil => simp at hlen
    | cons g gs =>
      have h1 : asGraphRecur t n c = .ok g :=
        ih c g (hcons (c, g) (by simp)) (hdep g (by simp))
      have h2 : asGraphChildren t n cs = .ok gs :=
        ihc gs (by simpa using hlen) (fun p hp => hcons p (by simp [hp]))
          (fun g2 hg2 => hdep g2 (by simp [hg2]))
      simp [asGraphChildren, h1, h2]

theorem asGraphRecur_of_consistent (t : FlutterSemanticsTree) :
    ∀ (fuel : Nat) (id : Int) (g : GraphNode),
      ConsistentAt t id g → GraphNode.depth g ≤ fuel →
      asGraphRecur t fuel id = .ok g := by
  intro fuel
  induction fuel with
  | zero =>
    intro id g hc hd
    exfalso
    cases hc with
    | mk id node childIds childGraphs hnode hadj hlen hch =>
      rw [GraphNode.depth_mk] at hd
      omega
  | succ n ih =>
    intro id g hc hd
    cases hc with
    | mk id node childIds childGraphs hnode hadj hlen hch =>
      rw [GraphNode.depth_mk] at hd
      have hcd : ∀ g2 ∈ childGraphs, GraphNode.depth g2 ≤ n := by
        intro g2 hg2
        have hlt := GraphNode.depth_child_lt node childGraphs g2 hg2
        rw [GraphNode.depth_mk] at hlt
        omega
      have hchok := asGraphChildren_of_consistent t n ih childIds childGraphs
        hlen hch hcd
      simp [asGraphRecur, hnode, hadj, hchok]

theorem asGraphChildren_ok_mem (t : FlutterSemanticsTree) (n : Nat) :
    ∀ (cs : List Int) (gs : List GraphNode), asGraphChildren t n cs = .ok gs →
      ∀ c ∈ cs, ∃ g, asGraphRecur t n c = .ok g := by
  intro cs
  induction cs with
  | nil =>
    intro gs h c hc
    simp at hc
  | cons c0 cs ihc =>
    intro gs h c hc
    simp only [asGraphChildren] at h
    cases h1 : asGraphRecur t n c0 with
    | ok g0 =>
      rw [h1] at h
      cases h2 : asGraphChildren t n cs with
      | ok gs2 =>
        rw [h2] at h
        rcases List.mem_cons.mp hc with rfl | hmem
        · exact ⟨g0, h1⟩
        · exact ihc gs2 h2 c hmem
      | panicked => rw [h2] at h; simp at h
      | outOfFuel => rw [h2] at h; simp at h
    | panicked => rw [h1] at h; simp at h
    | outOfFuel => rw [h1] at h; simp at h

theorem asGraphRecur_ok_elim (t : FlutterSemanticsTree) (fuel : Nat) (id : Int)
    (g : GraphNode) (h : asGraphRecur t fuel id = .ok g) :
    ∃ (n : Nat) (node : FlutterSemanticsNode) (childIds : List Int)
      (gs : List GraphNode),
      fuel = n + 1 ∧ t.idMap.lookup id = some node
      ∧ t.adjacencyList.lookup id = some childIds
      ∧ asGraphChildren t n childIds = .ok gs ∧ g = .mk node gs := by
  cases fuel with
  | zero => simp [asGraphRecur] at h
  | succ n =>
    cases h1 : t.idMap.lookup id with
    | none => simp [asGraphRecur, h1] at h
    | some node =>
      cases h2 : t.adjacencyList.lookup id with
      | none => simp [asGraphRecur, h1, h2] at h
      | some childIds =>
        cases h3 : asGraphChildren t n childIds with
        | ok gs =>
          simp only [asGraphRecur, h1, h2, h3] at h
          refine ⟨n, node, childIds, gs, rfl, rfl, rfl, h3, ?_⟩
          cases h
          rfl
        | panicked => simp [asGraphRecur, h1, h2, h3] at h
        | outOfFuel => simp [asGraphRecur, h1, h2, h3] at h

theorem asGraphRecur_ok_present (t : FlutterSemanticsTree) (fuel : Nat)
    (i : Int) (g2 : GraphNode) (h : asGraphRecur t fuel i = .ok g2) :
    (t.idMap.lookup i).isSome ∧ (t.adjacencyList.lookup i).isSome := by
  obtain ⟨n, node, cs, gs, rfl, h1, h2, -, -⟩ := asGraphRecur_ok_elim t fuel i g2 h
  exact ⟨by simp [h1], by simp [h2]⟩

theorem reachable_traversal_ok (t : FlutterSemanticsTree) (fuel : Nat)
    (g : GraphNode) (hok : asGraph t fuel = .ok g) :
    ∀ (i : Int), ReachableId t i →
      ∃ (n : Nat) (g2 : GraphNode), asGraphRecur t n i = .ok g2 := by
  intro i hr
  induction hr with
  | root => exact ⟨fuel, g, hok⟩
  | child id cid node childIds hr2 hnode hadj hmem ih =>
    obtain ⟨n, g2, hok2⟩ := ih
    obtain ⟨n2, node2, childIds2, gs2, rfl, hn2, ha2, hch, rfl⟩ :=
      asGraphRecur_ok_elim t n id g2 hok2
    rw [hadj] at ha2
    obtain rfl : childIds = childIds2 := by injection ha2
    obtain ⟨g3, h3⟩ := asGraphChildren_ok_mem t n2 childIds gs2 hch cid hmem
    exact ⟨n2, g3, h3⟩

/-! ### C9: traversal totality and panics -/

/-- **C9.** The recursive traversal of the semantics tree (`as_graph` /
`as_label_positions`) is panic-free exactly under the precondition that the
root id 0 and every id transitively reachable through the children lists are
present in both maps: (i) when the maps describe a finite consistent tree,
traversal (with fuel at least its depth) succeeds and returns it; (ii) a
successful traversal forces every reachable id to be present in both the
node map and the children map, so a missing reachable id means the traversal
can never return a result; (iii) a missing root node entry or root children
entry makes the traversal panic immediately (the `unwrap` of a failed map
lookup) rather than return an empty result; and (iv) `as_label_positions`
yields a value exactly when `as_graph` does. -/
theorem semantics_traversal_panic_conditions (t : FlutterSemanticsTree)
    (fuel : Nat) (g gw : GraphNode) (i : Int) :
    (ConsistentAt t rootId gw → GraphNode.depth gw ≤ fuel →
      asGraph t fuel = .ok gw)
    ∧ (asGraph t fuel = .ok g → ReachableId t i →
        (t.idMap.lookup i).isSome ∧ (t.adjacencyList.lookup i).isSome)
    ∧ (t.idMap.lookup rootId = none → asGraph t (fuel + 1) = .panicked)
    ∧ (∀ node, t.idMap.lookup rootId = some node →
        t.adjacencyList.lookup rootId = none →
        asGraph t (fuel + 1) = .panicked)
    ∧ ((asLabelPositions t fuel).isSome ↔ ∃ g2, asGraph t fuel = .ok g2) := by
  refine ⟨?_, ?_, ?_, ?_, ?_⟩
  · intro hc hd
    exact asGraphRecur_of_consistent t fuel rootId gw hc hd
  · intro hok hr
    obtain ⟨n, g2, h2⟩ := reachable_traversal_ok t fuel g hok i hr
    exact asGraphRecur_ok_present t n i g2 h2
  · intro hn
    simp [asGraph, asGraphRecur, hn]
  · intro node hn ha
    simp [asGraph, asGraphRecur, hn, ha]
  · unfold asLabelPositions
    cases hg : asGraph t fuel with
    | ok g2 => simp
    | panicked => simp
    | outOfFuel => simp

/-- Witness for `semantics_traversal_panic_conditions`: on the one-node tree
`{0 ↦ (node, [])}`, traversal with fuel 1 succeeds and the root entries are
present. -/
theorem semantics_traversal_witness :
    asGraph sampleSemanticsTree 1 = .ok (.mk sampleSemanticsNode [])
    ∧ (sampleSemanticsTree.idMap.lookup 0).isSome = true := by
  have hc : ConsistentAt sampleSemanticsTree rootId (.mk sampleSemanticsNode []) := by
    refine ConsistentAt.mk 0 sampleSemanticsNode [] [] rfl rfl rfl ?_
    intro p hp
    simp at hp
  have hd : GraphNode.depth (.mk sampleSemanticsNode []) ≤ 1 := by
    rw [GraphNode.depth_mk]
    simp
  refine ⟨(semantics_traversal_panic_conditions sampleSemanticsTree 1
    (.mk sampleSemanticsNode []) (.mk sampleSemanticsNode []) 0).1 hc hd, rfl⟩

end Flt

